import Mathlib

set_option maxHeartbeats 1000000

namespace RagChatbot

/-!  Shallow embedding of `src/advance/rag-agent/rag_chatbot.py` and of the
keyword routing loop of
`src/advance/multi-agent-architecture/multi_agent_system_with_agents_as_plugins.py`.

JSON objects are modelled as association lists from field names to string
values; a document stored in the Mongo collection is an association list whose
values are `Option String` (`none` models a JSON/Python `null`/`None` value).
The Mongo backend (`find_one`, `insert_one`, `find`, `list_indexes`,
`create_index`) is an external service: it is modelled by records of functions
returning `Except`, where `Except.error` models a raised `OperationFailure`
(or, for the ingestion loop which catches every `Exception`, any raised
exception). -/

/-- A JSON input record, as loaded from the data file: an association list of
string fields. -/
abbrev Item := List (String × String)

/-- First-binding-wins key lookup in an association list (Python `dict` access:
a Python dict has unique keys, so taking the first binding is faithful). -/
def lookupKey {α : Type} : List (String × α) → String → Option α
  | [], _ => none
  | (k', v) :: rest, k => if k' = k then some v else lookupKey rest k

/-- Python `item.get(key)`: `none` models the `None` returned for a missing
key. -/
def Item.get (item : Item) (k : String) : Option String := lookupKey item k

/-- A document of the Mongo collection: field values are `Option String`, with
`none` modelling a `null` value (as produced by `item.get('id')` on a missing
input field). -/
abbrev Document := List (String × Option String)

/-- The document built at lines 39-44 of `rag_chatbot.py`:
`{"_id": item.get('id'), "title": item.get('title'),
"content": item.get('content'), "category": "movie"}`. -/
def newDocument (item : Item) : Document :=
  [("_id", Item.get item "id"),
   ("title", Item.get item "title"),
   ("content", Item.get item "content"),
   ("category", some "movie")]

/-- External calls the ingestion loop can make.  `embedCall` is included so
that "no embedding-service call is made" is a statement about the recorded
trace; the source's ingestion loop never emits one. -/
inductive Call where
  | findCall : Option String → Call
  | insertCall : Document → Call
  | embedCall : String → Call
deriving DecidableEq, Repr

/-- Behaviour of the external Mongo collection used by the ingestion loop.
The collection state is the list of stored documents; `.error` models a raised
exception. -/
structure MongoModel where
  findBehavior : List Document → Option String → Except String (Option Document)
  insertBehavior : List Document → Document → Except String (List Document)

/-- State threaded through the ingestion loop: the store contents, the three
counters of the ingest report (the source prints one line per branch; the
counters count those branches), the failed records with their errors, and the
trace of external calls made so far. -/
structure IngestState where
  store : List Document
  inserted : Nat
  skipped : Nat
  failed : List (Item × String)
  trace : List Call
deriving DecidableEq, Repr

/-- Lines 47-52 of `rag_chatbot.py`: the existence check.
`find_one({"_id": item.get('id')})` is issued; a document found means
`exists = True`; any raised exception is caught and treated as
`exists = False`. -/
def existsCheck (m : MongoModel) (st : List Document) (item : Item) : Bool :=
  match m.findBehavior st (Item.get item "id") with
  | .ok existing_doc => existing_doc.isSome
  | .error _ => false

/-- One iteration of the `for idx, item in enumerate(data)` loop (lines 36-61):
check existence; if absent, try `insert_one(new_document)`, counting a success
as inserted and recording a raised exception in `failed` (the loop continues
either way); if present, count the record as skipped. -/
def ingestStep (m : MongoModel) (s : IngestState) (item : Item) : IngestState :=
  let new_document := newDocument item
  let s1 : IngestState := { s with trace := s.trace ++ [Call.findCall (Item.get item "id")] }
  if existsCheck m s.store item then
    { s1 with skipped := s1.skipped + 1 }
  else
    let s2 : IngestState := { s1 with trace := s1.trace ++ [Call.insertCall new_document] }
    match m.insertBehavior s.store new_document with
    | .ok st' => { s2 with store := st', inserted := s2.inserted + 1 }
    | .error e => { s2 with failed := s2.failed ++ [(item, e)] }

/-- The ingestion loop of `upsert_data_to_memory_store` (lines 36-61 of
`rag_chatbot.py`), run over the already-loaded JSON array. -/
def upsert_data_to_memory_store (m : MongoModel) (store : List Document)
    (data : List Item) : IngestState :=
  data.foldl (ingestStep m) ⟨store, 0, 0, [], []⟩

/-- The honest behaviour of `collection.find_one({"_id": v})`: the first stored
document whose `_id` field equals `v`. -/
def honestFind (st : List Document) (v : Option String) : Option Document :=
  st.find? (fun d => lookupKey d "_id" == some v)

/-- A Mongo collection that answers `find_one` from its current contents and
appends on `insert_one`, never raising. -/
def honestModel : MongoModel where
  findBehavior := fun st v => .ok (honestFind st v)
  insertBehavior := fun st d => .ok (st ++ [d])

/-- A Mongo collection whose existence lookup always raises (the fail-open
stub of the spec's testable property), while inserts behave honestly. -/
def failingFindModel : MongoModel where
  findBehavior := fun _ _ => .error "lookup failed"
  insertBehavior := fun st d => .ok (st ++ [d])

/-! ### Search engine (`search_documents`, lines 102-152) -/

/-- The Mongo query surface used by `search_documents`.  `textFind q` models
`find({"$text": {"$search": q}}, score projection).sort(score)` (the backend
returns the full relevance-ranked match list; `.limit` is applied by the
engine); `orFind conds` models `find({"$or": conds})` where each condition is a
case-insensitive regex `{field: {"$regex": pat, "$options": "i"}}`, given as a
`(field, pat)` pair.  `.error` models a raised `OperationFailure`. -/
structure Collection where
  textFind : String → Except String (List Document)
  orFind : List (String × String) → Except String (List Document)

/-- ASCII lowercasing, modelling Python `str.lower()` on the ASCII inputs the
script deals with. -/
def lowerStr (s : String) : String := String.mk (s.data.map Char.toLower)

/-- Helper for Python `str.split()`: accumulate the current word (reversed) and
split on whitespace, dropping empty segments. -/
def wordsAux : List Char → List Char → List String
  | acc, [] => if acc.isEmpty then [] else [String.mk acc.reverse]
  | acc, c :: rest =>
    if c.isWhitespace then
      if acc.isEmpty then wordsAux [] rest
      else String.mk acc.reverse :: wordsAux [] rest
    else wordsAux (c :: acc) rest

/-- Python `str.split()` with no argument: split on runs of whitespace,
no empty tokens. -/
def splitWhitespace (s : String) : List String := wordsAux [] s.data

/-- The regex `$or` conditions of strategy 2 (lines 120-125): the raw query
against `title` and against `content`. -/
def regexConds (query_term : String) : List (String × String) :=
  [("title", query_term), ("content", query_term)]

/-- The `keyword_conditions` list of strategy 3 (lines 133-140): for each
whitespace token of the lowercased query, a `title` and a `content` regex
condition, in loop order. -/
def keywordConds (query_term : String) : List (String × String) :=
  (splitWhitespace (lowerStr query_term)).flatMap
    (fun keyword => [("title", keyword), ("content", keyword)])

/-- Strategies 2 and 3 of `search_documents` (lines 119-152): regex search on
title and content, then keyword-OR search, each capped by `.limit(limit)`;
neither `find` call is inside a `try`, so a raised `OperationFailure`
propagates.  Returns `[]` when both yield nothing (or the keyword condition
list is empty). -/
def regex_and_keyword_search (collection : Collection) (query_term : String)
    (limit : Nat) : Except String (List Document) :=
  match collection.orFind (regexConds query_term) with
  | .error e => .error e
  | .ok regex_results =>
    let regex_results := regex_results.take limit
    if regex_results.isEmpty then
      let keyword_conditions := keywordConds query_term
      if keyword_conditions.isEmpty then .ok []
      else
        match collection.orFind keyword_conditions with
        | .error e => .error e
        | .ok keyword_results =>
          let keyword_results := keyword_results.take limit
          if keyword_results.isEmpty then .ok [] else .ok keyword_results
    else .ok regex_results

/-- `search_documents(collection, query_term, limit)` (lines 102-152): try the
`$text` search first, returning its (ranked, limit-capped) results when
non-empty; an `OperationFailure` from it is caught and falls through, as does
an empty result, to the regex and keyword strategies. -/
def search_documents (collection : Collection) (query_term : String)
    (limit : Nat) : Except String (List Document) :=
  match collection.textFind query_term with
  | .ok text_results =>
    let text_results := text_results.take limit
    if text_results.isEmpty then
      regex_and_keyword_search collection query_term limit
    else
      .ok text_results
  | .error _ => regex_and_keyword_search collection query_term limit

/-! ### Index setup (`setup_search_indexes`, lines 63-100) -/

/-- One index as reported by `list_indexes()`: its name and its key document
(field name to index kind, `"text"` or `"1"`). -/
structure IndexInfo where
  name : String
  key : List (String × String)
deriving DecidableEq, Repr

/-- The Mongo surface used by `setup_search_indexes`: `list_indexes()` and
`create_index(spec)`; `.error` models a raised `OperationFailure` with its
message string. -/
structure IndexBackend where
  list_indexes : Except String (List IndexInfo)
  create_index : List (String × String) → Except String Unit

/-- The observable outcomes (print statements) of `setup_search_indexes`. -/
inductive SetupEvent where
  | createdTextIndex
  | textIndexExists : String → SetupEvent
  | createdCategoryIndex
  | categoryIndexExists
  | createdTitleIndex
  | titleIndexExists
  | exactlyOneTextIndexWarning
  | setupError : String → SetupEvent
deriving DecidableEq, Repr

/-- The index spec `[('title', 'text'), ('content', 'text')]` of line 75-78. -/
def textIndexSpec : List (String × String) := [("title", "text"), ("content", "text")]

/-- Substring containment over characters: does `pat` occur in the scanned
list? -/
def hasSubstring (pat : List Char) : List Char → Bool
  | [] => pat.isEmpty
  | c :: rest => pat.isPrefixOf (c :: rest) || hasSubstring pat rest

/-- Python's `pat in s` on strings. -/
def containsSub (s pat : String) : Bool := hasSubstring pat.data s.data

/-- The outer `except OperationFailure` handler of lines 96-100: an
`ExactlyOneTextIndex` message is reported as a benign warning, anything else
as a setup error; either way the function returns normally. -/
def outerHandler (e : String) : SetupEvent :=
  if containsSub e "ExactlyOneTextIndex" then SetupEvent.exactlyOneTextIndexWarning
  else SetupEvent.setupError e

/-- The two inner `try create_index ... except OperationFailure` blocks of
lines 83-94 (category then title): a raised `OperationFailure` is caught and
reported as "already exists". -/
def createFilterIndexes (collection : IndexBackend) : List SetupEvent :=
  (match collection.create_index [("category", "1")] with
   | .ok _ => [SetupEvent.createdCategoryIndex]
   | .error _ => [SetupEvent.categoryIndexExists]) ++
  (match collection.create_index [("title", "1")] with
   | .ok _ => [SetupEvent.createdTitleIndex]
   | .error _ => [SetupEvent.titleIndexExists])

/-- `setup_search_indexes(collection)` (lines 63-100).  Returns the emitted
events together with the list of `create_index` calls attempted, inside an
`Except` whose `.error` would model an exception escaping to the caller (the
function catches every `OperationFailure`, so it always returns `.ok`). -/
def setup_search_indexes (collection : IndexBackend) :
    Except String (List SetupEvent × List (List (String × String))) :=
  match collection.list_indexes with
  | .error e => .ok ([outerHandler e], [])
  | .ok existing_indexes =>
    let text_indexes := existing_indexes.filter
      (fun idx => idx.key.any (fun field => field.2 == "text"))
    match text_indexes with
    | [] =>
      (match collection.create_index textIndexSpec with
       | .error e => .ok ([outerHandler e], [textIndexSpec])
       | .ok _ =>
         .ok (SetupEvent.createdTextIndex :: createFilterIndexes collection,
              [textIndexSpec, [("category", "1")], [("title", "1")]]))
    | t0 :: _ =>
      .ok (SetupEvent.textIndexExists t0.name :: createFilterIndexes collection,
           [[("category", "1")], [("title", "1")]])

/-! ### Keyword routing (multi-agent script, lines 85-101) -/

/-- The three preset agents of the multi-agent script. -/
inductive Agent where
  | billing
  | refund
  | triage
deriving DecidableEq, Repr

/-- Line 89 of the multi-agent script. -/
def billing_keywords : List String :=
  ["billing", "charge", "payment", "fee", "bill", "invoice", "subscription"]

/-- Line 90 of the multi-agent script. -/
def refund_keywords : List String :=
  ["refund", "return", "money back", "reimburse", "cancel"]

/-- The `agent_to_use` selection of lines 85-101: lowercase the input, route to
billing on any billing keyword, else to refund on any refund keyword, else to
triage. -/
def agent_to_use (user_input : String) : Agent :=
  let user_lower := lowerStr user_input
  if billing_keywords.any (fun keyword => containsSub user_lower keyword) then
    Agent.billing
  else if refund_keywords.any (fun keyword => containsSub user_lower keyword) then
    Agent.refund
  else
    Agent.triage

/-! ### Concrete instances used in witnesses and counterexamples -/

/-- A first sample input record. -/
def item1 : Item := [("id", "1"), ("title", "Movie One"), ("content", "c1")]

/-- A second sample input record. -/
def item2 : Item := [("id", "2"), ("title", "Movie Two"), ("content", "c2")]

/-- A third sample input record. -/
def item3 : Item := [("id", "3"), ("title", "Movie Three"), ("content", "c3")]

/-- A Mongo collection whose insert raises exactly for the document with id
`"2"` (record 2's per-record call fails), and behaves honestly otherwise. -/
def failSecondModel : MongoModel where
  findBehavior := fun st v => .ok (honestFind st v)
  insertBehavior := fun st d =>
    if lookupKey d "_id" == some (some "2") then .error "embedding call failed"
    else .ok (st ++ [d])

/-- A sample stored document for search results. -/
def docEx : Document := [("_id", some "42"), ("title", some "The Godfather")]

/-- A collection where the text search raises, the regex `$or` raises, and the
keyword `$or` (over the lowercased tokens of `"Movie"`) succeeds with one
document. -/
def colEx : Collection where
  textFind := fun _ => .error "text index missing"
  orFind := fun conds =>
    if conds = regexConds "Movie" then .error "regex boom" else .ok [docEx]

/-- A collection where the text and regex strategies succeed empty and the
keyword strategy matches `docEx`. -/
def colKw : Collection where
  textFind := fun _ => .ok []
  orFind := fun conds =>
    if conds = keywordConds "movie" then .ok [docEx] else .ok []

/-- A collection with five regex matches and no text index, to exercise the
limit cap. -/
def colFive : Collection where
  textFind := fun _ => .error "text index missing"
  orFind := fun _ => .ok [docEx, docEx, docEx, docEx, docEx]

/-- An index backend with no existing index whose `create_index` raises a
backend error that does not signal "index already exists". -/
def badIndexBackend : IndexBackend where
  list_indexes := .ok []
  create_index := fun spec => if spec = textIndexSpec then .error "disk full" else .ok ()

/-- An index backend that already has a text index and accepts the remaining
index creations. -/
def hasTextIndexBackend : IndexBackend where
  list_indexes := .ok [⟨"title_text_content_text", [("title", "text"), ("content", "text")]⟩]
  create_index := fun _ => .ok ()

/-! ### Helper lemmas on the ingestion loop -/

/-- A present record makes one step of the loop bump `skipped` only. -/
theorem ingestStep_skip (m : MongoModel) (s : IngestState) (item : Item)
    (h : existsCheck m s.store item = true) :
    ingestStep m s item =
      { s with skipped := s.skipped + 1,
               trace := s.trace ++ [Call.findCall (Item.get item "id")] } := by
  simp [ingestStep, h]

/-- An absent record with a succeeding insert updates the store and bumps
`inserted`. -/
theorem ingestStep_insert_ok (m : MongoModel) (s : IngestState) (item : Item)
    (st' : List Document) (h : existsCheck m s.store item = false)
    (hins : m.insertBehavior s.store (newDocument item) = .ok st') :
    ingestStep m s item =
      { s with store := st', inserted := s.inserted + 1,
               trace := s.trace ++ [Call.findCall (Item.get item "id"),
                                    Call.insertCall (newDocument item)] } := by
  simp [ingestStep, h, hins]

/-- An absent record with a raising insert appends to `failed` and continues. -/
theorem ingestStep_insert_err (m : MongoModel) (s : IngestState) (item : Item)
    (e : String) (h : existsCheck m s.store item = false)
    (hins : m.insertBehavior s.store (newDocument item) = .error e) :
    ingestStep m s item =
      { s with failed := s.failed ++ [(item, e)],
               trace := s.trace ++ [Call.findCall (Item.get item "id"),
                                    Call.insertCall (newDocument item)] } := by
  simp [ingestStep, h, hins]

/-- Every call in the trace after one step was already there, or is the find
or insert call of this record. -/
theorem ingestStep_trace_sub (m : MongoModel) (s : IngestState) (item : Item)
    (c : Call) (hc : c ∈ (ingestStep m s item).trace) :
    c ∈ s.trace ∨ c = Call.findCall (Item.get item "id") ∨
      c = Call.insertCall (newDocument item) := by
  by_cases h : existsCheck m s.store item
  · rw [ingestStep_skip m s item h] at hc
    simp only [List.mem_append, List.mem_singleton] at hc
    tauto
  · rw [Bool.not_eq_true] at h
    cases hins : m.insertBehavior s.store (newDocument item) with
    | ok st' =>
      rw [ingestStep_insert_ok m s item st' h hins] at hc
      simp only [List.mem_append, List.mem_cons, List.mem_singleton] at hc
      tauto
    | error e =>
      rw [ingestStep_insert_err m s item e h hins] at hc
      simp only [List.mem_append, List.mem_cons, List.mem_singleton] at hc
      tauto

/-- The ingestion loop never emits an embedding-service call. -/
theorem foldl_no_embed (m : MongoModel) (data : List Item) (s : IngestState)
    (hs : ∀ t, Call.embedCall t ∉ s.trace) (t : String) :
    Call.embedCall t ∉ (data.foldl (ingestStep m) s).trace := by
  induction data generalizing s with
  | nil => exact hs t
  | cons item rest ih =>
    refine ih (ingestStep m s item) (fun t' hmem => ?_)
    rcases ingestStep_trace_sub m s item _ hmem with h | h | h
    · exact hs t' h
    · cases h
    · cases h

/-- Every insert call in the trace after the loop was already in the starting
trace or inserts the document built from one of the processed records. -/
theorem foldl_trace_insert (m : MongoModel) (data : List Item) (s : IngestState)
    (d : Document) (hd : Call.insertCall d ∈ (data.foldl (ingestStep m) s).trace) :
    Call.insertCall d ∈ s.trace ∨ ∃ item, item ∈ data ∧ d = newDocument item := by
  induction data generalizing s with
  | nil => exact Or.inl hd
  | cons item rest ih =>
    rcases ih (ingestStep m s item) hd with h | ⟨it, hit, hdoc⟩
    · rcases ingestStep_trace_sub m s item _ h with h' | h' | h'
      · exact Or.inl h'
      · cases h'
      · exact Or.inr ⟨item, List.mem_cons_self _ _, by injection h'⟩
    · exact Or.inr ⟨it, List.mem_cons_of_mem _ hit, hdoc⟩

/-- A `find_one` hit is preserved when documents are appended to the store. -/
theorem honestFind_append (st l : List Document) (v : Option String) (d : Document)
    (h : honestFind st v = some d) : honestFind (st ++ l) v = some d := by
  unfold honestFind at h ⊢
  rw [List.find?_append, h]
  rfl

/-- The honest existence check is exactly `find_one` hitting. -/
theorem existsCheck_honest (st : List Document) (item : Item) :
    existsCheck honestModel st item = (honestFind st (Item.get item "id")).isSome := rfl

/-- Over the honest collection, a record already stored under some id is never
re-inserted and the `find_one` answer for that id is unchanged by the loop. -/
theorem honest_foldl_preserves (data : List Item) (s : IngestState)
    (v : Option String) (d : Document) (hfind : honestFind s.store v = some d) :
    honestFind (data.foldl (ingestStep honestModel) s).store v = some d ∧
    (∀ d', Call.insertCall d' ∈ (data.foldl (ingestStep honestModel) s).trace →
      Call.insertCall d' ∈ s.trace ∨ lookupKey d' "_id" ≠ some v) := by
  induction data generalizing s with
  | nil => exact ⟨hfind, fun d' h => Or.inl h⟩
  | cons item rest ih =>
    rw [List.foldl_cons]
    by_cases hc : existsCheck honestModel s.store item
    · have hstep := ingestStep_skip honestModel s item hc
      have hres := ih (ingestStep honestModel s item) (by rw [hstep]; exact hfind)
      refine ⟨hres.1, fun d' hmem => ?_⟩
      rcases hres.2 d' hmem with h | h
      · rw [hstep] at h
        rcases List.mem_append.mp h with h' | h'
        · exact Or.inl h'
        · simp at h'
      · exact Or.inr h
    · rw [Bool.not_eq_true] at hc
      have hnone : honestFind s.store (Item.get item "id") = none := by
        rw [existsCheck_honest] at hc
        cases hEq : honestFind s.store (Item.get item "id") with
        | none => rfl
        | some d2 => rw [hEq] at hc; simp at hc
      have hstep := ingestStep_insert_ok honestModel s item _ hc rfl
      have hres := ih (ingestStep honestModel s item)
        (by rw [hstep]; exact honestFind_append _ _ _ _ hfind)
      refine ⟨hres.1, fun d' hmem => ?_⟩
      rcases hres.2 d' hmem with h | h
      · rw [hstep] at h
        rcases List.mem_append.mp h with h' | h'
        · exact Or.inl h'
        · have hd' : d' = newDocument item := by simpa using h'
          subst hd'
          refine Or.inr (fun hid => ?_)
          have hidv : Item.get item "id" = v := by
            simpa [newDocument, lookupKey] using hid
          rw [hidv] at hnone
          rw [hnone] at hfind
          cases hfind
      · exact Or.inr h

/-- The id-presence set of the store only grows during the loop; each record
whose id was present at loop start therefore takes the skip branch, so
`skipped` dominates the count of such records. -/
theorem honest_foldl_skipped (store0 : List Document) (data : List Item)
    (s : IngestState)
    (H : ∀ v d, honestFind store0 v = some d → honestFind s.store v = some d) :
    s.skipped + data.countP (fun item => (honestFind store0 (Item.get item "id")).isSome)
      ≤ (data.foldl (ingestStep honestModel) s).skipped := by
  induction data generalizing s with
  | nil => simp
  | cons item rest ih =>
    rw [List.foldl_cons, List.countP_cons]
    by_cases hp : (honestFind store0 (Item.get item "id")).isSome = true
    · obtain ⟨d0, hd0⟩ := Option.isSome_iff_exists.mp hp
      have hc : existsCheck honestModel s.store item = true := by
        rw [existsCheck_honest, H _ _ hd0]; rfl
      rw [ingestStep_skip honestModel s item hc]
      have hrec := ih { s with
          skipped := s.skipped + 1
          trace := s.trace ++ [Call.findCall (Item.get item "id")] }
        (fun v d hv => H v d hv)
      dsimp only at hrec ⊢
      simp only [hp, if_true]
      omega
    · rw [Bool.not_eq_true] at hp
      simp [hp]
      by_cases hc : existsCheck honestModel s.store item
      · rw [ingestStep_skip honestModel s item hc]
        have hrec := ih { s with
            skipped := s.skipped + 1
            trace := s.trace ++ [Call.findCall (Item.get item "id")] }
          (fun v d hv => H v d hv)
        dsimp only at hrec ⊢
        omega
      · rw [Bool.not_eq_true] at hc
        rw [ingestStep_insert_ok honestModel s item _ hc rfl]
        have hrec := ih { s with
            store := s.store ++ [newDocument item]
            inserted := s.inserted + 1
            trace := s.trace ++ [Call.findCall (Item.get item "id"),
              Call.insertCall (newDocument item)] }
          (fun v d hv => honestFind_append _ _ _ _ (H v d hv))
        dsimp only at hrec ⊢
        omega

/-- With the always-raising existence check, every record is treated as absent
and inserted: full state characterization of the loop. -/
theorem failingFind_foldl (data : List Item) (s : IngestState) :
    (data.foldl (ingestStep failingFindModel) s).inserted = s.inserted + data.length ∧
    (data.foldl (ingestStep failingFindModel) s).skipped = s.skipped ∧
    (data.foldl (ingestStep failingFindModel) s).failed = s.failed ∧
    (data.foldl (ingestStep failingFindModel) s).store = s.store ++ data.map newDocument := by
  induction data generalizing s with
  | nil => simp
  | cons item rest ih =>
    rw [List.foldl_cons]
    have hc : existsCheck failingFindModel s.store item = false := rfl
    rw [ingestStep_insert_ok failingFindModel s item _ hc rfl]
    obtain ⟨h1, h2, h3, h4⟩ := ih { s with
      store := s.store ++ [newDocument item]
      inserted := s.inserted + 1
      trace := s.trace ++ [Call.findCall (Item.get item "id"),
        Call.insertCall (newDocument item)] }
    dsimp only at h1 h2 h3 h4
    refine ⟨by rw [h1]; simp; omega, by rw [h2], by rw [h3], by rw [h4]; simp⟩

/-- Each iteration of the loop accounts its record in exactly one of the three
report buckets, so the buckets partition the batch. -/
theorem foldl_counters_sum (m : MongoModel) (data : List Item) (s : IngestState) :
    (data.foldl (ingestStep m) s).inserted + (data.foldl (ingestStep m) s).skipped +
        (data.foldl (ingestStep m) s).failed.length
      = s.inserted + s.skipped + s.failed.length + data.length := by
  induction data generalizing s with
  | nil => simp
  | cons item rest ih =>
    rw [List.foldl_cons, List.length_cons]
    by_cases hc : existsCheck m s.store item
    · rw [ingestStep_skip m s item hc]
      have hrec := ih { s with
        skipped := s.skipped + 1
        trace := s.trace ++ [Call.findCall (Item.get item "id")] }
      dsimp only at hrec
      omega
    · rw [Bool.not_eq_true] at hc
      cases hins : m.insertBehavior s.store (newDocument item) with
      | ok st' =>
        rw [ingestStep_insert_ok m s item st' hc hins]
        have hrec := ih { s with
          store := st'
          inserted := s.inserted + 1
          trace := s.trace ++ [Call.findCall (Item.get item "id"),
            Call.insertCall (newDocument item)] }
        dsimp only at hrec
        omega
      | error e =>
        rw [ingestStep_insert_err m s item e hc hins]
        have hrec := ih { s with
          failed := s.failed ++ [(item, e)]
          trace := s.trace ++ [Call.findCall (Item.get item "id"),
            Call.insertCall (newDocument item)] }
        dsimp only at hrec
        rw [List.length_append] at hrec
        dsimp only [List.length_cons, List.length_nil] at hrec
        omega

/-- The regex and keyword stage returns at most `limit` documents. -/
theorem rks_length_le (collection : Collection) (query_term : String)
    (limit : Nat) (results : List Document)
    (h : regex_and_keyword_search collection query_term limit = .ok results) :
    results.length ≤ limit := by
  unfold regex_and_keyword_search at h
  cases horf : collection.orFind (regexConds query_term) with
  | error e => rw [horf] at h; cases h
  | ok rr =>
    simp only [horf] at h
    by_cases hre : (rr.take limit).isEmpty
    · rw [if_pos hre] at h
      by_cases hkc : (keywordConds query_term).isEmpty
      · rw [if_pos hkc] at h
        cases h
        simp
      · rw [if_neg hkc] at h
        cases hkw : collection.orFind (keywordConds query_term) with
        | error e => rw [hkw] at h; cases h
        | ok kr =>
          simp only [hkw] at h
          by_cases hke : (kr.take limit).isEmpty
          · rw [if_pos hke] at h
            cases h
            simp
          · rw [if_neg hke] at h
            cases h
            rw [List.length_take]
            exact min_le_left _ _
    · rw [if_neg hre] at h
      cases h
      rw [List.length_take]
      exact min_le_left _ _

/-- Bool-level test for an embedding-service call, for closed statements. -/
def isEmbedCall : Call → Bool
  | Call.embedCall _ => true
  | _ => false

/-! ### Claim theorems -/

/-- C9: agent routing is case-insensitive substring matching with fixed
precedence: any billing keyword in the lowercased input routes to the billing
agent (even if a refund keyword is also present), else any refund keyword
routes to the refund agent, else the triage agent handles the turn. -/
theorem C9_keyword_routing (user_input : String) :
    (billing_keywords.any (fun keyword => containsSub (lowerStr user_input) keyword) = true →
      agent_to_use user_input = Agent.billing) ∧
    (billing_keywords.any (fun keyword => containsSub (lowerStr user_input) keyword) = false →
      refund_keywords.any (fun keyword => containsSub (lowerStr user_input) keyword) = true →
      agent_to_use user_input = Agent.refund) ∧
    (billing_keywords.any (fun keyword => containsSub (lowerStr user_input) keyword) = false →
      refund_keywords.any (fun keyword => containsSub (lowerStr user_input) keyword) = false →
      agent_to_use user_input = Agent.triage) :=
  ⟨fun hb => by simp [agent_to_use, hb],
   fun hb hr => by simp [agent_to_use, hb, hr],
   fun hb hr => by simp [agent_to_use, hb, hr]⟩

/-- C9 witness: "cancel my subscription" contains both a refund keyword
("cancel") and a billing keyword ("subscription") and goes to billing; a
refund-only input goes to refund; a keyword-free input goes to triage. -/
theorem C9_keyword_routing_witness :
    agent_to_use "cancel my subscription" = Agent.billing ∧
    agent_to_use "I want a REFUND now" = Agent.refund ∧
    agent_to_use "hello there" = Agent.triage :=
  ⟨(C9_keyword_routing "cancel my subscription").1 (by decide),
   (C9_keyword_routing "I want a REFUND now").2.1 (by decide) (by decide),
   (C9_keyword_routing "hello there").2.2 (by decide) (by decide)⟩

/-- C10: every document the ingestion loop inserts is `newDocument` of some
input record, and such a document has exactly the fields `_id`, `title`,
`content`, `category`, with `category` the constant `"movie"`, the others
copied from the input (defaulting to null), and any other key absent. -/
theorem C10_inserted_document_shape (m : MongoModel) (store : List Document)
    (data : List Item) (item : Item) :
    (∀ d, Call.insertCall d ∈ (upsert_data_to_memory_store m store data).trace →
      ∃ it, it ∈ data ∧ d = newDocument it) ∧
    (newDocument item).map Prod.fst = ["_id", "title", "content", "category"] ∧
    lookupKey (newDocument item) "_id" = some (Item.get item "id") ∧
    lookupKey (newDocument item) "title" = some (Item.get item "title") ∧
    lookupKey (newDocument item) "content" = some (Item.get item "content") ∧
    lookupKey (newDocument item) "category" = some (some "movie") ∧
    (∀ k, k ≠ "_id" → k ≠ "title" → k ≠ "content" → k ≠ "category" →
      lookupKey (newDocument item) k = none) := by
  refine ⟨fun d hd => ?_, rfl, by simp [newDocument, lookupKey],
    by simp [newDocument, lookupKey], by simp [newDocument, lookupKey],
    by simp [newDocument, lookupKey], fun k h1 h2 h3 h4 => ?_⟩
  · rcases foldl_trace_insert m data _ d hd with h | h
    · simp at h
    · exact h
  · simp [newDocument, lookupKey, Ne.symm h1, Ne.symm h2, Ne.symm h3, Ne.symm h4]

/-- C10 witness: a fifth input field ("rating") does not survive into the
inserted document, while `category` is forced to "movie". -/
theorem C10_inserted_document_shape_witness :
    lookupKey (newDocument (("rating", "9") :: item1)) "rating" = none ∧
    lookupKey (newDocument (("rating", "9") :: item1)) "category" = some (some "movie") :=
  ⟨(C10_inserted_document_shape honestModel [] [] (("rating", "9") :: item1)).2.2.2.2.2.2
      "rating" (by decide) (by decide) (by decide) (by decide),
   (C10_inserted_document_shape honestModel [] [] (("rating", "9") :: item1)).2.2.2.2.2.1⟩

/-- C3: a raised existence check is treated as "not found" (fail-open), and
with an always-raising existence check every record of the batch is inserted,
none skipped or failed, and the loop returns normally with the full report. -/
theorem C3_fail_open :
    (∀ (m : MongoModel) (st : List Document) (item : Item) (e : String),
      m.findBehavior st (Item.get item "id") = .error e → existsCheck m st item = false) ∧
    (∀ (store : List Document) (data : List Item),
      (upsert_data_to_memory_store failingFindModel store data).inserted = data.length ∧
      (upsert_data_to_memory_store failingFindModel store data).skipped = 0 ∧
      (upsert_data_to_memory_store failingFindModel store data).failed = [] ∧
      (upsert_data_to_memory_store failingFindModel store data).store =
        store ++ data.map newDocument) := by
  constructor
  · intro m st item e he
    simp [existsCheck, he]
  · intro store data
    have h := failingFind_foldl data ⟨store, 0, 0, [], []⟩
    simpa [upsert_data_to_memory_store] using h

/-- C3 witness: the fail-open stub inserts the whole two-record batch. -/
theorem C3_fail_open_witness :
    existsCheck failingFindModel [] item1 = false ∧
    (upsert_data_to_memory_store failingFindModel [] [item1, item2]).inserted = 2 :=
  ⟨C3_fail_open.1 failingFindModel [] item1 "lookup failed" rfl,
   (C3_fail_open.2 [] [item1, item2]).1⟩

/-- C4 counterexample: a batch with one absent record is ingested with an
insert and NO embedding-service call anywhere in the trace — the loop never
calls an embedding service, contradicting "generates an embedding via the
embedding service" for absent records. -/
theorem C4_counterexample :
    (upsert_data_to_memory_store honestModel [] [item1]).inserted = 1 ∧
    (upsert_data_to_memory_store honestModel [] [item1]).trace =
      [Call.findCall (some "1"), Call.insertCall (newDocument item1)] ∧
    (upsert_data_to_memory_store honestModel [] [item1]).trace.any isEmbedCall = false := by
  refine ⟨by decide, by decide, by decide⟩

/-- C4 (amended): for every record whose id is absent from the store, the loop
upserts the document built from the record via `insert_one` and increments the
inserted count; no embedding-service call is made (the loop makes none). -/
theorem C4_absent_inserts (m : MongoModel) (s : IngestState) (item : Item)
    (st' : List Document)
    (habs : existsCheck m s.store item = false)
    (hins : m.insertBehavior s.store (newDocument item) = .ok st') :
    ingestStep m s item = { s with
      store := st'
      inserted := s.inserted + 1
      trace := s.trace ++ [Call.findCall (Item.get item "id"),
        Call.insertCall (newDocument item)] } ∧
    (∀ t, Call.embedCall t ∈ (ingestStep m s item).trace →
      Call.embedCall t ∈ s.trace) := by
  refine ⟨ingestStep_insert_ok m s item st' habs hins, fun t ht => ?_⟩
  rcases ingestStep_trace_sub m s item _ ht with h | h | h
  · exact h
  · cases h
  · cases h

/-- C4 amended-claim witness: inserting the one absent record bumps `inserted`
to 1 and records exactly a find and an insert call. -/
theorem C4_absent_inserts_witness :
    ingestStep honestModel ⟨[], 0, 0, [], []⟩ item1 =
      ⟨[newDocument item1], 1, 0, [],
        [Call.findCall (some "1"), Call.insertCall (newDocument item1)]⟩ :=
  (C4_absent_inserts honestModel ⟨[], 0, 0, [], []⟩ item1 [newDocument item1]
    (by decide) rfl).1

/-- C5: the three report buckets partition every batch (so a failing record
never aborts the loop and a report is always produced); a failed insert
appends the record and its error to `failed` and processing continues; and on
the three-record example where only record 2's call fails the report is
inserted 2, skipped 0, failed [record 2], with records 1 and 3 stored. -/
theorem C5_partial_failure :
    (∀ (m : MongoModel) (store : List Document) (data : List Item),
      (upsert_data_to_memory_store m store data).inserted +
        (upsert_data_to_memory_store m store data).skipped +
        (upsert_data_to_memory_store m store data).failed.length = data.length) ∧
    (∀ (m : MongoModel) (s : IngestState) (item : Item) (e : String),
      existsCheck m s.store item = false →
      m.insertBehavior s.store (newDocument item) = .error e →
      ingestStep m s item = { s with
        failed := s.failed ++ [(item, e)]
        trace := s.trace ++ [Call.findCall (Item.get item "id"),
          Call.insertCall (newDocument item)] }) ∧
    (upsert_data_to_memory_store failSecondModel [] [item1, item2, item3]).inserted = 2 ∧
    (upsert_data_to_memory_store failSecondModel [] [item1, item2, item3]).skipped = 0 ∧
    (upsert_data_to_memory_store failSecondModel [] [item1, item2, item3]).failed =
      [(item2, "embedding call failed")] ∧
    (upsert_data_to_memory_store failSecondModel [] [item1, item2, item3]).store =
      [newDocument item1, newDocument item3] := by
  refine ⟨fun m store data => ?_,
    fun m s item e h1 h2 => ingestStep_insert_err m s item e h1 h2,
    by decide, by decide, by decide, by decide⟩
  have h := foldl_counters_sum m data ⟨store, 0, 0, [], []⟩
  simpa [upsert_data_to_memory_store] using h

/-- C5 witness: the failing record 2 goes to `failed` with its error and the
loop state otherwise continues unchanged. -/
theorem C5_partial_failure_witness :
    ingestStep failSecondModel ⟨[], 0, 0, [], []⟩ item2 =
      ⟨[], 0, 0, [(item2, "embedding call failed")],
        [Call.findCall (some "2"), Call.insertCall (newDocument item2)]⟩ :=
  C5_partial_failure.2.1 failSecondModel ⟨[], 0, 0, [], []⟩ item2
    "embedding call failed" (by decide) rfl

/-- C1: over the honest store, the loop never calls an embedding service (so
an embedding is generated at most once — in fact never — per content value);
for every batch record whose id is already present, no insert of a document
with that id is performed and the stored record for that id is unchanged; and
`skipped` counts at least every batch record whose id was present at start. -/
theorem C1_skip_existing (store : List Document) (data : List Item) :
    (∀ t, Call.embedCall t ∉ (upsert_data_to_memory_store honestModel store data).trace) ∧
    (∀ item d, item ∈ data → honestFind store (Item.get item "id") = some d →
      (∀ d', Call.insertCall d' ∈ (upsert_data_to_memory_store honestModel store data).trace →
        lookupKey d' "_id" ≠ some (Item.get item "id")) ∧
      honestFind (upsert_data_to_memory_store honestModel store data).store
        (Item.get item "id") = some d) ∧
    data.countP (fun item => (honestFind store (Item.get item "id")).isSome) ≤
      (upsert_data_to_memory_store honestModel store data).skipped := by
  refine ⟨fun t => ?_, fun item d hmem hfind => ?_, ?_⟩
  · exact foldl_no_embed honestModel data ⟨store, 0, 0, [], []⟩
      (fun t' => List.not_mem_nil _) t
  · have h := honest_foldl_preserves data ⟨store, 0, 0, [], []⟩
      (Item.get item "id") d hfind
    refine ⟨fun d' hd' => ?_, h.1⟩
    rcases h.2 d' hd' with h' | h'
    · exact absurd h' (List.not_mem_nil _)
    · exact h'
  · have h := honest_foldl_skipped store data ⟨store, 0, 0, [], []⟩
      (fun v d hv => hv)
    simpa [upsert_data_to_memory_store] using h

/-- C1 witness: re-ingesting record 1 next to a fresh record 2 leaves the
stored record for id "1" unchanged and skips it. -/
theorem C1_skip_existing_witness :
    honestFind
        (upsert_data_to_memory_store honestModel [newDocument item1] [item1, item2]).store
        (Item.get item1 "id") = some (newDocument item1) ∧
    List.countP (fun item => (honestFind [newDocument item1] (Item.get item "id")).isSome)
        [item1, item2] ≤
      (upsert_data_to_memory_store honestModel [newDocument item1] [item1, item2]).skipped :=
  ⟨((C1_skip_existing [newDocument item1] [item1, item2]).2.1 item1 (newDocument item1)
      (by decide) (by decide)).2,
   (C1_skip_existing [newDocument item1] [item1, item2]).2.2⟩

/-- C2: with all three strategies answering (no raise), the engine returns the
limit-capped result set of the first strategy in the order text search, regex,
keyword-OR whose capped result set is non-empty, with no merging, and returns
`.ok []` (no raise) when every strategy yields empty (or the keyword condition
list is empty). -/
theorem C2_strategy_order (collection : Collection) (query_term : String)
    (limit : Nat) (t r k : List Document)
    (hpos : 0 < limit)
    (ht : collection.textFind query_term = .ok t)
    (hr : collection.orFind (regexConds query_term) = .ok r)
    (hk : collection.orFind (keywordConds query_term) = .ok k) :
    search_documents collection query_term limit =
      .ok (if (t.take limit).isEmpty then
             (if (r.take limit).isEmpty then
                (if (keywordConds query_term).isEmpty then []
                 else if (k.take limit).isEmpty then [] else k.take limit)
              else r.take limit)
           else t.take limit) := by
  unfold search_documents regex_and_keyword_search
  simp only [ht, hr, hk]
  by_cases h1 : (t.take limit).isEmpty <;> by_cases h2 : (r.take limit).isEmpty <;>
    by_cases h3 : (keywordConds query_term).isEmpty <;>
    by_cases h4 : (k.take limit).isEmpty <;>
    simp [h1, h2, h3, h4]

/-- C2 witness: with text and regex strategies empty, the keyword strategy's
result set for "Movie" (tokenized, lowercased) is returned unmerged. -/
theorem C2_strategy_order_witness :
    search_documents colKw "Movie" 3 = .ok [docEx] := by
  rw [C2_strategy_order colKw "Movie" 3 [] [] [docEx] (by decide) rfl rfl rfl]
  rfl

/-- C8: whenever the engine returns a result set, its size is at most
`limit`, whichever strategy produced it. -/
theorem C8_limit_cap (collection : Collection) (query_term : String)
    (limit : Nat) (results : List Document) (hpos : 0 < limit)
    (h : search_documents collection query_term limit = .ok results) :
    results.length ≤ limit := by
  unfold search_documents at h
  cases htf : collection.textFind query_term with
  | error e =>
    simp only [htf] at h
    exact rks_length_le collection query_term limit results h
  | ok t =>
    simp only [htf] at h
    by_cases hte : (t.take limit).isEmpty
    · rw [if_pos hte] at h
      exact rks_length_le collection query_term limit results h
    · rw [if_neg hte] at h
      cases h
      rw [List.length_take]
      exact min_le_left _ _

/-- C8 witness: five matching documents with limit 2 yield exactly 2
results. -/
theorem C8_limit_cap_witness :
    search_documents colFive "Movie" 2 = .ok [docEx, docEx] ∧
    ([docEx, docEx] : List Document).length ≤ 2 :=
  ⟨rfl, C8_limit_cap colFive "Movie" 2 [docEx, docEx] (by decide) rfl⟩

/-- C6 counterexample: with the text strategy raising and the regex strategy
raising, the regex error surfaces directly even though the keyword strategy
would succeed with a non-empty result — so a strategy error does not always
fall through, and an error can surface although not every strategy fails. -/
theorem C6_counterexample :
    search_documents colEx "Movie" 5 = .error "regex boom" ∧
    colEx.orFind (keywordConds "Movie") = .ok [docEx] :=
  ⟨rfl, rfl⟩

/-- C6 (amended): only the text-search strategy's backend error is caught
(falling through to the regex and keyword stage); an error raised by the regex
`find` or by the keyword `find` propagates to the caller unchanged, with no
`SearchFailed` wrapping. -/
theorem C6_error_propagation (collection : Collection) (query_term : String)
    (limit : Nat) :
    (∀ e, collection.textFind query_term = .error e →
      search_documents collection query_term limit =
        regex_and_keyword_search collection query_term limit) ∧
    (∀ e, collection.orFind (regexConds query_term) = .error e →
      regex_and_keyword_search collection query_term limit = .error e) ∧
    (∀ e r, collection.orFind (regexConds query_term) = .ok r →
      (r.take limit).isEmpty = true →
      (keywordConds query_term).isEmpty = false →
      collection.orFind (keywordConds query_term) = .error e →
      regex_and_keyword_search collection query_term limit = .error e) := by
  refine ⟨fun e he => ?_, fun e he => ?_, fun e r hre hemp hkc hke => ?_⟩
  · simp [search_documents, he]
  · simp [regex_and_keyword_search, he]
  · simp [regex_and_keyword_search, hre, hemp, hkc, hke]

/-- C6 amended-claim witness: the regex strategy's error surfaces from the
fallthrough stage untouched. -/
theorem C6_error_propagation_witness :
    regex_and_keyword_search colEx "Movie" 5 = .error "regex boom" :=
  (C6_error_propagation colEx "Movie" 5).2.1 "regex boom" rfl

/-- C7 counterexample: a backend error that does not signal "index already
exists" ("disk full") is caught and logged, and `setup_search_indexes` still
returns normally — no error propagates to the caller (and there is no
`IndexSetupError`). -/
theorem C7_counterexample :
    setup_search_indexes badIndexBackend =
      .ok ([SetupEvent.setupError "disk full"], [textIndexSpec]) ∧
    containsSub "disk full" "ExactlyOneTextIndex" = false :=
  ⟨rfl, by decide⟩

/-- C7 (amended): `setup_search_indexes` always returns normally; when a text
index already exists it is left untouched (no text-index creation call) and a
no-op is reported; a raised error on text-index creation is caught and mapped
by the outer handler (an "ExactlyOneTextIndex" message is reclassified as a
benign warning, anything else is logged as a setup error, never propagated);
and the text index spec is not among the calls made in the already-exists
case. -/
theorem C7_idempotent_setup :
    (∀ b : IndexBackend, ∃ v, setup_search_indexes b = .ok v) ∧
    (∀ (b : IndexBackend) (idxs : List IndexInfo) (t0 : IndexInfo) (rest : List IndexInfo),
      b.list_indexes = .ok idxs →
      idxs.filter (fun idx => idx.key.any (fun field => field.2 == "text")) = t0 :: rest →
      setup_search_indexes b =
        .ok (SetupEvent.textIndexExists t0.name :: createFilterIndexes b,
             [[("category", "1")], [("title", "1")]])) ∧
    (∀ (b : IndexBackend) (idxs : List IndexInfo) (e : String),
      b.list_indexes = .ok idxs →
      idxs.filter (fun idx => idx.key.any (fun field => field.2 == "text")) = [] →
      b.create_index textIndexSpec = .error e →
      setup_search_indexes b = .ok ([outerHandler e], [textIndexSpec])) ∧
    textIndexSpec ∉ [[("category", "1")], [("title", "1")]] := by
  refine ⟨fun b => ?_, fun b idxs t0 rest h1 h2 => ?_, fun b idxs e h1 h2 h3 => ?_,
    by decide⟩
  · unfold setup_search_indexes
    cases hli : b.list_indexes with
    | error e => exact ⟨_, rfl⟩
    | ok idxs =>
      cases hf : idxs.filter (fun idx => idx.key.any (fun field => field.2 == "text")) with
      | nil =>
        cases hci : b.create_index textIndexSpec with
        | error e => exact ⟨([outerHandler e], [textIndexSpec]), by simp [hf, hci]⟩
        | ok u =>
          exact ⟨(SetupEvent.createdTextIndex :: createFilterIndexes b,
            [textIndexSpec, [("category", "1")], [("title", "1")]]), by simp [hf, hci]⟩
      | cons t0 rest =>
        exact ⟨(SetupEvent.textIndexExists t0.name :: createFilterIndexes b,
          [[("category", "1")], [("title", "1")]]), by simp [hf]⟩
  · simp [setup_search_indexes, h1, h2]
  · simp [setup_search_indexes, h1, h2, h3]

/-- C7 amended-claim witness: with a text index already present, setup reports
the no-op and only creates the category and title filter indexes. -/
theorem C7_idempotent_setup_witness :
    setup_search_indexes hasTextIndexBackend =
      .ok ([SetupEvent.textIndexExists "title_text_content_text",
            SetupEvent.createdCategoryIndex, SetupEvent.createdTitleIndex],
           [[("category", "1")], [("title", "1")]]) :=
  C7_idempotent_setup.2.1 hasTextIndexBackend
    [⟨"title_text_content_text", [("title", "text"), ("content", "text")]⟩]
    ⟨"title_text_content_text", [("title", "text"), ("content", "text")]⟩ [] rfl
    (by decide)

end RagChatbot
